import Mathlib

/-!
Verification development for `scripts/performance-boxplot.py`.

The script reads two JSON files (a "master" and a "current" benchmark
dataset), and for each top-level key ("pallet"/category) of the master
dataset it reshapes the nested per-test timing arrays into a long-form
table, draws a grouped boxplot and saves it as `<category>.png` inside a
`results` directory created under the original working directory.

The embedding below models the JSON data as association lists, the pandas
operations (`DataFrame` construction from a dict of lists, `melt`,
constant-column assignment, `concat` with `ignore_index=True`) as list
functions with the documented library semantics, and the script
filesystem interaction (mkdir / open / chdir / savefig) as an explicit
state machine over a small filesystem model that also records an event
trace.  Timing samples and figure dimensions are rationals (the Python
floats 15.5 and 0.6 are exact decimals).
-/

/-- A JSON object mapping test names to arrays of timing samples
(one category of data).  Association list: JSON objects preserve
key order and `json.load` keeps it. -/
abbrev TestMap := List (String × List ℚ)

/-- A whole benchmark dataset: category name ↦ tests of that category. -/
abbrev Dataset := List (String × TestMap)

/-- Python `dict` lookup (`d[k]`), returning `none` where Python raises
`KeyError`.  First binding wins; JSON-loaded dicts have unique keys. -/
def dictGet {β : Type} (l : List (String × β)) (k : String) : Option β :=
  match l with
  | [] => none
  | (k', v) :: rest => if k' = k then some v else dictGet rest k

/-- Do all columns of the dict have the same length?  (`pandas.DataFrame`
accepts a dict of lists only when the lists are of equal length.) -/
def allEqualLengths (d : TestMap) : Bool :=
  match d with
  | [] => true
  | (_, xs) :: rest => rest.all (fun c => c.2.length == xs.length)

/-- Model of `pandas.DataFrame(d)` on a dict of lists: the frame simply is the
column dict, but construction raises `ValueError` when the lists have
different lengths (no padding happens for plain Python lists). -/
def mkDataFrame (d : TestMap) : Except String TestMap :=
  if allEqualLengths d then Except.ok d
  else Except.error "ValueError: All arrays must be of the same length"

/-- Model of `pandas.melt` with `var_name=Test` and `value_name=Time`: one output row
per (column, cell), stacked column by column, keeping every cell. -/
def melt (d : TestMap) : List (String × ℚ) :=
  d.flatMap (fun c => c.2.map (fun x => (c.1, x)))

/-- One row of a long-form table after the branch column is assigned:
columns `Test`, `Time`, `branch`. -/
structure Row where
  test : String
  time : ℚ
  branch : String
deriving DecidableEq, Repr

/-- Model of the branch-column assignment (`df[branch] = b`): stamp the
constant branch label onto every row. -/
def assignBranch (b : String) (rs : List (String × ℚ)) : List Row :=
  rs.map (fun r => { test := r.1, time := r.2, branch := b })

/-- Attach the `RangeIndex` a freshly produced frame carries:
row `i` gets integer index `i`. -/
def withIndex (rs : List Row) : List (Nat × Row) :=
  (List.range rs.length).zip rs

/-- Model of `pandas.concat([a, b], ignore_index=True)`: rows of `a` then rows of
`b`, with the index renumbered consecutively from 0. -/
def concatIgnoreIndex (a b : List (Nat × Row)) : List (Nat × Row) :=
  withIndex (a.map Prod.snd ++ b.map Prod.snd)

/-- Lines 26–34 of the script, for one pallet: build and melt the master
frame, stamp `master`, look `pallet` up in the current dataset
(`data_current[pallet]`, a `KeyError` when absent), build and melt the
current frame, stamp `current`, and concatenate with
`ignore_index=True`.  Any error aborts the run. -/
def processPallet (pallet : String) (masterTests : TestMap)
    (dataCurrent : Dataset) : Except String (List (Nat × Row)) := do
  let dfm ← mkDataFrame masterTests
  let rowsMaster := withIndex (assignBranch "master" (melt dfm))
  let currentTests ←
    match dictGet dataCurrent pallet with
    | some t => Except.ok t
    | none => Except.error ("KeyError: " ++ pallet)
  let dfc ← mkDataFrame currentTests
  let rowsCurrent := withIndex (assignBranch "current" (melt dfc))
  Except.ok (concatIgnoreIndex rowsMaster rowsCurrent)

/-- Line 7: `figure_width = 15.5`. -/
def figure_width : ℚ := 15.5

/-- Line 8: `item_height = 0.6`. -/
def item_height : ℚ := 0.6

/-- The figure saved for one pallet: the plotted table and the size set by
`figure.set_size_inches(figure_width, item_height * len(data_master[pallet]))`. -/
structure Chart where
  table : List (Nat × Row)
  width : ℚ
  height : ℚ
deriving DecidableEq, Repr

/-- Lines 26–42 for one pallet: the long-form table plus the figure
dimensions.  The height uses the number of tests in the *master* mapping
for the pallet (`len(data_master[pallet])`). -/
def renderPallet (pallet : String) (masterTests : TestMap)
    (dataCurrent : Dataset) : Except String Chart := do
  let table ← processPallet pallet masterTests dataCurrent
  Except.ok { table := table, width := figure_width,
              height := item_height * (masterTests.length : ℚ) }

/-- Run the rendering of the pallet loop over the master dataset entries in
order, stopping at the first error; returns the charts produced before the
error (those files were already written) and the error, if any. -/
def renderAll (dataCurrent : Dataset) :
    List (String × TestMap) → List (String × Chart) × Option String
  | [] => ([], none)
  | (pallet, mt) :: rest =>
    match renderPallet pallet mt dataCurrent with
    | Except.error e => ([], some e)
    | Except.ok c =>
      let (cs, err) := renderAll dataCurrent rest
      ((pallet ++ ".png", c) :: cs, err)

/-- The modelled filesystem: whether `<cwd>/results` exists, and the files
inside it (name ↦ saved figure). -/
structure FS where
  resultsDirExists : Bool
  files : List (String × Chart)
deriving DecidableEq, Repr

/-- Model of `figure.savefig(name)`: silently overwrite an existing file of that
name, otherwise create it. -/
def upsert (l : List (String × Chart)) (n : String) (c : Chart) :
    List (String × Chart) :=
  if (dictGet l n).isSome then
    l.map (fun p => if p.1 = n then (n, c) else p)
  else l ++ [(n, c)]

/-- Write one figure into the results directory. -/
def saveFig (fs : FS) (n : String) (c : Chart) : FS :=
  { fs with files := upsert fs.files n c }

/-- Write each rendered chart in order (the loop writes a file per
iteration as it goes). -/
def applyCharts (fs : FS) (cs : List (String × Chart)) : FS :=
  cs.foldl (fun f nc => saveFig f nc.1 nc.2) fs

/-- Observable side effects of the run, in program order. -/
inductive Event where
  | mkdirEv : String → Event
  | openEv : String → Event
  | chdirEv : String → Event
  | saveEv : String → Event
deriving DecidableEq, Repr

/-- The world the script starts in: the process working directory, the
argument vector (`argv[0]` is the program name), the readable files
(absolute path ↦ parsed dataset, `none` standing for a file whose content
is not valid JSON of the expected shape), and the results directory
state. -/
structure World where
  cwd : String
  argv : List String
  fileContents : List (String × Option Dataset)
  fs : FS

/-- Resolution of a path against the current working directory, as
`open` does for relative paths. -/
def resolve (cwd p : String) : String :=
  if p.data.head? = some '/' then p else cwd ++ "/" ++ p

/-- Lines 10–11: `os.path.join(os.getcwd(), results)`. -/
def resultsPath (w : World) : String := w.cwd ++ "/results"

/-- Lines 12–13: create the results directory only when it is absent. -/
def mkdirStage (w : World) : FS × List Event :=
  if w.fs.resultsDirExists then (w.fs, [])
  else ({ w.fs with resultsDirExists := true },
        [Event.mkdirEv (resultsPath w)])

/-- Lines 15–19 for one argument: `open(sys.argv[i])` + `json.load`.
`sys.argv[i]` raises `IndexError` when absent; `open` resolves a relative
path against the current working directory and raises
`FileNotFoundError` when the file does not exist; `json.load` raises when
the content is not valid.  An open event is recorded once the file is
actually opened. -/
def loadArg (w : World) (i : Nat) : Except String Dataset × List Event :=
  match w.argv.get? i with
  | none => (Except.error "IndexError: list index out of range", [])
  | some a =>
    match dictGet w.fileContents (resolve w.cwd a) with
    | none => (Except.error ("FileNotFoundError: " ++ resolve w.cwd a), [])
    | some none =>
      (Except.error "json.decoder.JSONDecodeError", [Event.openEv (resolve w.cwd a)])
    | some (some d) => (Except.ok d, [Event.openEv (resolve w.cwd a)])

/-- Final state of a run: the error it died with (if any), the results
directory contents, the event trace and the final working directory. -/
structure Outcome where
  error : Option String
  fs : FS
  trace : List Event
  cwd : String

/-- The whole script, in source order: prepare the results directory
(lines 10–13), load `argv[1]` then `argv[2]` (15–19), `os.chdir` into the
results directory (21), then the pallet loop (25–44), which renders each
category of the master dataset and saves `<pallet>.png`, keeping the
files written before a mid-loop error. -/
def runScript (w : World) : Outcome :=
  let (fs1, tr1) := mkdirStage w
  match loadArg w 1 with
  | (Except.error e, tro1) =>
    { error := some e, fs := fs1, trace := tr1 ++ tro1, cwd := w.cwd }
  | (Except.ok dataMaster, tro1) =>
    match loadArg w 2 with
    | (Except.error e, tro2) =>
      { error := some e, fs := fs1, trace := tr1 ++ tro1 ++ tro2, cwd := w.cwd }
    | (Except.ok dataCurrent, tro2) =>
      let (charts, err) := renderAll dataCurrent dataMaster
      { error := err,
        fs := applyCharts fs1 charts,
        trace := tr1 ++ tro1 ++ tro2 ++ [Event.chdirEv (resultsPath w)]
                 ++ charts.map (fun nc => Event.saveEv nc.1),
        cwd := resultsPath w }

/-- The names of the files the run saved, read off the trace. -/
def savedNames (tr : List Event) : List String :=
  tr.filterMap (fun e => match e with | Event.saveEv n => some n | _ => none)

/-- Total number of timing samples across all tests of a category. -/
def totalSamples (d : TestMap) : ℕ := (d.map (fun c => c.2.length)).sum

/-- Number of rows of a table carrying a given branch label. -/
def countBranch (b : String) (t : List (Nat × Row)) : ℕ :=
  (t.filter (fun r => r.2.branch == b)).length

/-- Number of distinct test names occurring in a table. -/
def distinctTests (t : List (Nat × Row)) : ℕ :=
  ((t.map (fun r => r.2.test)).dedup).length

/-- Is an event a file-open? -/
def isOpenEv : Event → Bool
  | Event.openEv _ => true
  | _ => false

/-- Is an event a change of working directory? -/
def isChdirEv : Event → Bool
  | Event.chdirEv _ => true
  | _ => false

/-- Does every `openEv` of the trace precede every `chdirEv`?  Checked as:
from each `chdirEv` on, no `openEv` occurs. -/
def noOpenAfterChdir : List Event → Bool
  | [] => true
  | Event.chdirEv _ :: rest =>
    rest.all (fun e => !(isOpenEv e)) && noOpenAfterChdir rest
  | _ :: rest => noOpenAfterChdir rest

/-- Is every opened path one of the two input arguments resolved against
the given working directory? -/
def opensResolvedAgainst (cwd : String) (argv : List String)
    (tr : List Event) : Bool :=
  tr.all (fun e =>
    match e with
    | Event.openEv p => ((argv.drop 1).take 2).any (fun a => resolve cwd a == p)
    | _ => true)

/-- Are the rows of a table all master-branch rows first, then all
current-branch rows? -/
def masterThenCurrent : List Row → Bool
  | [] => true
  | r :: rest =>
    if r.branch == "master" then masterThenCurrent rest
    else rest.all (fun s => s.branch == "current")

/-- Master/current datasets compatible enough for the run to finish: every
master category has equal-length sample lists and reappears in the current
dataset with equal-length sample lists. -/
def compatible (dm dc : Dataset) : Bool :=
  dm.all (fun c =>
    allEqualLengths c.2 &&
      match dictGet dc c.1 with
      | some ct => allEqualLengths ct
      | none => false)

/-! ### Concrete worlds used by the scenario claims -/

/-- The master dataset of the documented concrete scenario. -/
def masterCat1 : Dataset := [("cat1", [("testA", [1, 2, 3]), ("testB", [4, 5, 6])])]

/-- The current dataset of the documented concrete scenario. -/
def currentCat1 : Dataset := [("cat1", [("testA", [2, 3, 4]), ("testB", [3, 4, 5])])]

/-- A world in which the two scenario files are readable, given as
relative paths, and nothing has been produced yet. -/
def worldCat1 : World :=
  { cwd := "/w",
    argv := ["prog", "master.json", "current.json"],
    fileContents := [("/w/master.json", some masterCat1),
                     ("/w/current.json", some currentCat1)],
    fs := { resultsDirExists := false, files := [] } }

/-- Do all current-branch rows of a table use only test names from the
given test mapping? -/
def currentRowsFrom (ct : TestMap) (tbl : List (Nat × Row)) : Bool :=
  tbl.all (fun r =>
    r.2.branch != "current" || (ct.map Prod.fst).any (fun n => n == r.2.test))

/-- A world whose current dataset is the empty JSON object, missing the
category `cat1` present in the master dataset. -/
def worldMissingCat : World :=
  { cwd := "/w",
    argv := ["prog", "m.json", "c.json"],
    fileContents := [("/w/m.json", some [("cat1", [("t", [1])])]),
                     ("/w/c.json", some [])],
    fs := { resultsDirExists := false, files := [] } }

/-- A dataset whose single category holds tests with different sample
counts — still a well-formed mapping-of-mappings-of-number-arrays. -/
def raggedData : Dataset := [("c", [("t1", [1]), ("t2", [1, 2])])]

/-- A world where master and current are identical ragged datasets. -/
def worldRagged : World :=
  { cwd := "/w",
    argv := ["prog", "m.json", "c.json"],
    fileContents := [("/w/m.json", some raggedData),
                     ("/w/c.json", some raggedData)],
    fs := { resultsDirExists := false, files := [] } }

/-- A world invoking the script with two spurious extra arguments. -/
def worldExtraArgs : World :=
  { worldCat1 with argv := ["prog", "master.json", "current.json", "x", "y"] }

/-- A world invoking the script with no argument at all. -/
def worldNoArgs : World :=
  { cwd := "/w", argv := ["prog"], fileContents := [],
    fs := { resultsDirExists := false, files := [] } }

/-- A world with no results directory and no readable files, so that
loading the master input fails. -/
def worldBadInput : World :=
  { cwd := "/w", argv := ["prog", "missing.json", "other.json"],
    fileContents := [], fs := { resultsDirExists := false, files := [] } }

/-! ### Basic lemmas about the reshaping pipeline -/

theorem exbind_ok {α β : Type} (a : α) (f : α → Except String β) :
    (Except.ok a >>= f : Except String β) = f a := rfl

theorem melt_length (d : TestMap) : (melt d).length = totalSamples d := by
  induction d with
  | nil => rfl
  | cons c rest ih =>
    simp only [melt, List.flatMap_cons, List.length_append, List.length_map,
      totalSamples, List.map_cons, List.sum_cons] at ih ⊢
    omega

theorem assignBranch_length (b : String) (rs : List (String × ℚ)) :
    (assignBranch b rs).length = rs.length := by
  simp [assignBranch]

theorem withIndex_map_snd (rs : List Row) :
    (withIndex rs).map Prod.snd = rs := by
  simp [withIndex, List.map_snd_zip, List.length_range, le_refl]

theorem withIndex_map_fst (rs : List Row) :
    (withIndex rs).map Prod.fst = List.range rs.length := by
  simp [withIndex, List.map_fst_zip, List.length_range, le_refl]

theorem withIndex_length (rs : List Row) :
    (withIndex rs).length = rs.length := by
  simp [withIndex]

theorem assignBranch_branch (b : String) (rs : List (String × ℚ)) :
    ∀ r ∈ assignBranch b rs, r.branch = b := by
  intro r hr
  simp only [assignBranch, List.mem_map] at hr
  obtain ⟨x, -, rfl⟩ := hr
  rfl

theorem masterThenCurrent_append (ms cs : List Row)
    (hm : ∀ r ∈ ms, r.branch = "master")
    (hc : ∀ r ∈ cs, r.branch = "current") :
    masterThenCurrent (ms ++ cs) = true := by
  induction ms with
  | nil =>
    cases cs with
    | nil => rfl
    | cons r rest =>
      have hr := hc r (by simp)
      simp only [List.nil_append, masterThenCurrent, hr]
      rw [if_neg (by decide)]
      rw [List.all_eq_true]
      intro s hs
      simp [hc s (List.mem_cons_of_mem r hs)]
  | cons r rest ih =>
    have hr := hm r (by simp)
    simp only [List.cons_append, masterThenCurrent, hr]
    rw [if_pos (by decide)]
    exact ih (fun s hs => hm s (List.mem_cons_of_mem r hs))

/-- Shape of a successful `processPallet`: the concatenation of the
indexed master and current long-form rows. -/
theorem processPallet_ok (pallet : String) (mt : TestMap) (dc : Dataset)
    (ct : TestMap)
    (hmt : allEqualLengths mt = true)
    (hct : dictGet dc pallet = some ct)
    (hcteq : allEqualLengths ct = true) :
    processPallet pallet mt dc =
      Except.ok (concatIgnoreIndex
        (withIndex (assignBranch "master" (melt mt)))
        (withIndex (assignBranch "current" (melt ct)))) := by
  simp [processPallet, mkDataFrame, hmt, hct, hcteq, exbind_ok]

theorem exbind_error {α β : Type} (e : String) (f : α → Except String β) :
    (Except.error e >>= f : Except String β) = Except.error e := rfl

/-! ### C1 -/

/-- C1 (counterexample): with two tests of different sample counts in a
category, the wide table is *not* built by padding — `pandas.DataFrame`
on a dict of unequal-length lists raises `ValueError`, so no long-form
table is produced at all, contradicting the claimed row count. -/
theorem c1_ragged_counterexample :
    processPallet "cat" [("t1", [1]), ("t2", [1, 2])]
        [("cat", [("t1", [1]), ("t2", [1, 2])])]
      = Except.error "ValueError: All arrays must be of the same length" := by
  rfl

/-- C1 (amended): when the tests of a category all have the same sample
count, the wide table is built as-is and the long-form table for one
branch has exactly as many rows as there are samples across all tests;
when the sample counts differ, the wide-table construction fails with a
`ValueError` and no long-form table is produced. -/
theorem c1_reshape_count (d : TestMap) (b : String) :
    (allEqualLengths d = true →
      mkDataFrame d = Except.ok d ∧
        (assignBranch b (melt d)).length = totalSamples d) ∧
    (allEqualLengths d = false →
      mkDataFrame d
        = Except.error "ValueError: All arrays must be of the same length") := by
  constructor
  · intro h
    exact ⟨by simp [mkDataFrame, h], by rw [assignBranch_length, melt_length]⟩
  · intro h
    simp [mkDataFrame, h]

theorem c1_reshape_count_witness :
    (mkDataFrame [("tA", [(1:ℚ), 2, 3]), ("tB", [4, 5, 6])]
        = Except.ok [("tA", [(1:ℚ), 2, 3]), ("tB", [4, 5, 6])] ∧
      (assignBranch "master"
          (melt [("tA", [(1:ℚ), 2, 3]), ("tB", [4, 5, 6])])).length
        = totalSamples [("tA", [(1:ℚ), 2, 3]), ("tB", [4, 5, 6])]) ∧
    mkDataFrame [("x", [(1:ℚ), 2]), ("y", [3])]
      = Except.error "ValueError: All arrays must be of the same length" :=
  ⟨(c1_reshape_count [("tA", [(1:ℚ), 2, 3]), ("tB", [4, 5, 6])] "master").1
      (by decide),
   (c1_reshape_count [("x", [(1:ℚ), 2]), ("y", [3])] "master").2 (by decide)⟩

/-! ### C10 -/

/-- C10: in every combined long-form table the rows derived from the
master dataset precede all rows derived from the current dataset, and
`concat(..., ignore_index=True)` renumbers the index consecutively
from 0. -/
theorem c10_concat_order_and_index (pallet : String) (mt : TestMap)
    (dc : Dataset) (tbl : List (Nat × Row))
    (h : processPallet pallet mt dc = Except.ok tbl) :
    masterThenCurrent (tbl.map Prod.snd) = true ∧
      tbl.map Prod.fst = List.range tbl.length := by
  by_cases hmt : allEqualLengths mt = true
  · rcases hd : dictGet dc pallet with _ | ct
    · simp [processPallet, mkDataFrame, hmt, hd, exbind_ok, exbind_error] at h
    · by_cases hct : allEqualLengths ct = true
      · rw [processPallet_ok pallet mt dc ct hmt hd hct] at h
        injection h with h
        subst h
        constructor
        · simp only [concatIgnoreIndex, withIndex_map_snd]
          exact masterThenCurrent_append _ _
            (assignBranch_branch _ _) (assignBranch_branch _ _)
        · simp only [concatIgnoreIndex, withIndex_map_fst, withIndex_length]
      · simp [processPallet, mkDataFrame, hmt, hd, hct, exbind_ok,
          exbind_error] at h
  · simp [processPallet, mkDataFrame, hmt, exbind_error] at h

theorem c10_concat_order_and_index_witness :
    masterThenCurrent
        (([((0:ℕ), ({test := "tA", time := 1, branch := "master"} : Row)),
           (1, {test := "tA", time := 2, branch := "current"})]).map Prod.snd)
      = true ∧
    ([((0:ℕ), ({test := "tA", time := 1, branch := "master"} : Row)),
      (1, {test := "tA", time := 2, branch := "current"})]).map Prod.fst
      = List.range
          ([((0:ℕ), ({test := "tA", time := 1, branch := "master"} : Row)),
            (1, {test := "tA", time := 2, branch := "current"})]).length :=
  c10_concat_order_and_index "cat1" [("tA", [1])] [("cat1", [("tA", [2])])] _
    rfl

/-! ### C3 -/

/-- C3 (counterexample): a category whose current dataset has a test
absent from the master dataset: the combined table shows two distinct
test names but the saved figure height is `item_height * 1` (the code
uses `len(data_master[pallet])`), not `item_height * 2`. -/
theorem c3_height_counterexample :
    renderPallet "c" [("tA", [1])] [("c", [("tA", [1]), ("tB", [2])])]
      = Except.ok
          { table := [(0, {test := "tA", time := 1, branch := "master"}),
                      (1, {test := "tA", time := 1, branch := "current"}),
                      (2, {test := "tB", time := 2, branch := "current"})],
            width := figure_width,
            height := item_height * ((1 : ℕ) : ℚ) } ∧
    distinctTests
        [((0:ℕ), ({test := "tA", time := 1, branch := "master"} : Row)),
         (1, {test := "tA", time := 1, branch := "current"}),
         (2, {test := "tB", time := 2, branch := "current"})] = 2 ∧
    item_height * ((1 : ℕ) : ℚ) ≠ item_height * ((2 : ℕ) : ℚ) := by
  refine ⟨rfl, by decide, ?_⟩
  norm_num [item_height]

/-- C3 (amended): every figure the loop saves has width exactly
`figure_width = 15.5` and height exactly `item_height * M = 0.6 * M`,
where `M` is the number of tests recorded for the category in the
*master* dataset (`len(data_master[pallet])`) — which coincides with the
distinct test names of the combined data only when the two datasets list
the same tests. -/
theorem c3_figure_size (pallet : String) (mt : TestMap) (dc : Dataset)
    (c : Chart) (h : renderPallet pallet mt dc = Except.ok c) :
    c.width = figure_width ∧ c.height = item_height * (mt.length : ℚ) := by
  rcases hp : processPallet pallet mt dc with e | tbl
  · simp only [renderPallet, hp, exbind_error] at h
    exact Except.noConfusion h
  · simp only [renderPallet, hp, exbind_ok] at h
    injection h with h
    subst h
    exact ⟨rfl, rfl⟩

theorem c3_figure_size_witness :
    ({ table := [(0, {test := "tX", time := 7, branch := "master"}),
                 (1, {test := "tX", time := 8, branch := "current"})],
       width := figure_width,
       height := item_height * ((1 : ℕ) : ℚ) } : Chart).width = figure_width ∧
    ({ table := [(0, {test := "tX", time := 7, branch := "master"}),
                 (1, {test := "tX", time := 8, branch := "current"})],
       width := figure_width,
       height := item_height * ((1 : ℕ) : ℚ) } : Chart).height
      = item_height * (([("tX", [(7:ℚ)])] : TestMap).length : ℚ) :=
  c3_figure_size "k" [("tX", [7])] [("k", [("tX", [8])])] _ rfl

/-! ### C5 -/

/-- C5: on the documented scenario the run finishes without error, the
results directory holds exactly the one file `cat1.png`, and its table
has 12 rows, 6 labelled `master` and 6 labelled `current`. -/
theorem c5_scenario :
    (runScript worldCat1).error = none ∧
    (runScript worldCat1).fs.files.map Prod.fst = ["cat1.png"] ∧
    (runScript worldCat1).fs.files.map
        (fun nc => (nc.2.table.length, countBranch "master" nc.2.table,
                    countBranch "current" nc.2.table))
      = [(12, 6, 6)] := by
  decide

/-! ### C2 -/

theorem melt_test_mem (d : TestMap) (t : String) (q : ℚ)
    (h : (t, q) ∈ melt d) : t ∈ d.map Prod.fst := by
  simp only [melt, List.mem_flatMap, List.mem_map] at h
  obtain ⟨c, hc, x, -, hxq⟩ := h
  obtain ⟨rfl, -⟩ := Prod.mk.injEq _ _ _ _ ▸ hxq
  exact List.mem_map.mpr ⟨c, hc, rfl⟩

theorem currentRowsFrom_concat (mt ct : TestMap) :
    currentRowsFrom ct (concatIgnoreIndex
        (withIndex (assignBranch "master" (melt mt)))
        (withIndex (assignBranch "current" (melt ct)))) = true := by
  rw [currentRowsFrom, List.all_eq_true]
  intro x hx
  have hsnd : x.2 ∈ assignBranch "master" (melt mt)
      ++ assignBranch "current" (melt ct) := by
    have hx' := hx
    simp only [concatIgnoreIndex, withIndex_map_snd] at hx'
    rw [withIndex] at hx'
    exact (List.of_mem_zip hx').2
  rcases List.mem_append.mp hsnd with hmem | hmem
  · have hb := assignBranch_branch "master" (melt mt) _ hmem
    simp [hb]
  · simp only [assignBranch, List.mem_map] at hmem
    obtain ⟨⟨t, q⟩, hm, hr⟩ := hmem
    have ht : t ∈ ct.map Prod.fst := melt_test_mem ct t q hm
    rw [← hr]
    simp only [Bool.or_eq_true, List.any_eq_true]
    exact Or.inr ⟨t, ht, by simp⟩

/-- C2 (counterexample): when the current dataset is missing a whole
category present in master, the run does *not* proceed to a chart — it
dies with an uncaught `KeyError` from `data_current[pallet]`. -/
theorem c2_missing_category_counterexample :
    (runScript worldMissingCat).error = some "KeyError: cat1" := by decide

/-- C2 (amended): a current dataset missing an entire category of the
master dataset makes the run fail with an uncaught `KeyError`; a current
dataset that still has the category but is missing some of its tests is
not validated — the run proceeds and the current-branch rows of the chart
cover only the tests of the current mapping (partially-empty chart). -/
theorem c2_mismatch_behaviour (pallet : String) (mt : TestMap)
    (dc : Dataset) :
    (allEqualLengths mt = true → dictGet dc pallet = none →
      processPallet pallet mt dc
        = Except.error ("KeyError: " ++ pallet)) ∧
    (∀ ct, dictGet dc pallet = some ct → allEqualLengths mt = true →
      allEqualLengths ct = true →
      processPallet pallet mt dc
          = Except.ok (concatIgnoreIndex
              (withIndex (assignBranch "master" (melt mt)))
              (withIndex (assignBranch "current" (melt ct)))) ∧
        currentRowsFrom ct (concatIgnoreIndex
            (withIndex (assignBranch "master" (melt mt)))
            (withIndex (assignBranch "current" (melt ct)))) = true) := by
  constructor
  · intro hmt hd
    simp [processPallet, mkDataFrame, hmt, hd, exbind_ok, exbind_error]
  · intro ct hd hmt hct
    exact ⟨processPallet_ok pallet mt dc ct hmt hd hct,
      currentRowsFrom_concat mt ct⟩

theorem c2_mismatch_behaviour_witness :
    (processPallet "cat" [("t", [(1:ℚ)])] []
        = Except.error ("KeyError: " ++ "cat")) ∧
    (processPallet "cat" [("t", [(1:ℚ)])] [("cat", [])]
        = Except.ok (concatIgnoreIndex
            (withIndex (assignBranch "master" (melt [("t", [(1:ℚ)])])))
            (withIndex (assignBranch "current" (melt ([] : TestMap))))) ∧
      currentRowsFrom ([] : TestMap) (concatIgnoreIndex
          (withIndex (assignBranch "master" (melt [("t", [(1:ℚ)])])))
          (withIndex (assignBranch "current" (melt ([] : TestMap))))) = true) :=
  ⟨(c2_mismatch_behaviour "cat" [("t", [(1:ℚ)])] []).1 (by decide) (by decide),
   (c2_mismatch_behaviour "cat" [("t", [(1:ℚ)])] [("cat", [])]).2 []
      (by decide) (by decide) (by decide)⟩

/-! ### C4 -/

theorem renderAll_compatible (dc : Dataset) (dm : List (String × TestMap))
    (h : compatible dm dc = true) :
    (renderAll dc dm).2 = none ∧
      (renderAll dc dm).1.map Prod.fst
        = dm.map (fun c => c.1 ++ ".png") := by
  induction dm with
  | nil => exact ⟨rfl, rfl⟩
  | cons c rest ih =>
    obtain ⟨p, mt⟩ := c
    rw [compatible, List.all_cons] at h
    simp only [Bool.and_eq_true] at h
    obtain ⟨⟨hmt, hmatch⟩, h2⟩ := h
    rcases hd : dictGet dc p with _ | ct
    · rw [hd] at hmatch
      exact absurd hmatch (by simp)
    · rw [hd] at hmatch
      have hrp : renderPallet p mt dc = Except.ok
          { table := concatIgnoreIndex
              (withIndex (assignBranch "master" (melt mt)))
              (withIndex (assignBranch "current" (melt ct))),
            width := figure_width,
            height := item_height * (mt.length : ℚ) } := by
        rw [renderPallet, processPallet_ok p mt dc ct hmt hd hmatch, exbind_ok]
      have ihres := ih (by rw [compatible]; exact h2)
      rcases hra : renderAll dc rest with ⟨cs, err⟩
      rw [hra] at ihres
      simp only [renderAll, hrp, hra]
      exact ⟨ihres.1, by simp only [List.map_cons]; rw [ihres.2]⟩

theorem savedNames_append (t1 t2 : List Event) :
    savedNames (t1 ++ t2) = savedNames t1 ++ savedNames t2 := by
  simp [savedNames, List.filterMap_append]

theorem savedNames_saves (cs : List (String × Chart)) :
    savedNames (cs.map (fun nc => Event.saveEv nc.1)) = cs.map Prod.fst := by
  induction cs with
  | nil => rfl
  | cons c rest ih =>
    simp only [List.map_cons, savedNames, List.filterMap_cons] at ih ⊢
    rw [ih]

theorem savedNames_mkdir (w : World) : savedNames (mkdirStage w).2 = [] := by
  rw [mkdirStage]
  split <;> rfl

/-- C4 (counterexample): master and current agree exactly — one category,
identical test keys — yet the run dies on the `ValueError` from the
unequal sample counts and writes no image at all, while the master JSON
has one top-level key. -/
theorem c4_ragged_counterexample :
    (runScript worldRagged).error
        = some "ValueError: All arrays must be of the same length" ∧
    savedNames (runScript worldRagged).trace = [] ∧
    (runScript worldRagged).fs.files = [] ∧
    raggedData.length = 1 := by
  decide

/-- C4 (amended): for every pair of readable inputs whose parsed datasets
are compatible — every master category reappears in the current dataset
and all sample lists inside each of those categories have equal lengths
(identical category and test keys with equal-length lists is the special
case the spec describes) — the run finishes without error and writes
exactly one image per top-level master key, named `<category>.png`, in
master-key order. -/
theorem c4_one_file_per_category (w : World) (a1 a2 : String)
    (dm dc : Dataset)
    (h1 : w.argv.get? 1 = some a1)
    (h2 : w.argv.get? 2 = some a2)
    (hm : dictGet w.fileContents (resolve w.cwd a1) = some (some dm))
    (hc : dictGet w.fileContents (resolve w.cwd a2) = some (some dc))
    (hcompat : compatible dm dc = true) :
    (runScript w).error = none ∧
      savedNames (runScript w).trace = dm.map (fun c => c.1 ++ ".png") := by
  have hl1 : loadArg w 1 = (Except.ok dm, [Event.openEv (resolve w.cwd a1)]) := by
    simp only [loadArg, h1, hm]
  have hl2 : loadArg w 2 = (Except.ok dc, [Event.openEv (resolve w.cwd a2)]) := by
    simp only [loadArg, h2, hc]
  obtain ⟨herr, hnames⟩ := renderAll_compatible dc dm hcompat
  rcases hmk : mkdirStage w with ⟨fs1, tr1⟩
  rcases hra : renderAll dc dm with ⟨charts, err⟩
  rw [hra] at herr hnames
  have herr' : err = none := herr
  have hnames' : charts.map Prod.fst = dm.map (fun c => c.1 ++ ".png") := hnames
  simp only [runScript, hmk, hl1, hl2, hra]
  constructor
  · exact herr'
  · have htr1 : savedNames tr1 = [] := by
      have hsm := savedNames_mkdir w
      rw [hmk] at hsm
      exact hsm
    simp only [savedNames_append, htr1, savedNames_saves]
    simp only [savedNames, List.filterMap_cons, List.filterMap_nil]
    simp [hnames']

theorem c4_one_file_per_category_witness :
    (runScript worldCat1).error = none ∧
      savedNames (runScript worldCat1).trace
        = masterCat1.map (fun c => c.1 ++ ".png") :=
  c4_one_file_per_category worldCat1 "master.json" "current.json"
    masterCat1 currentCat1 rfl rfl rfl rfl (by decide)

/-! ### Filesystem lemmas (savefig overwrite semantics) -/

theorem dictGet_append {β : Type} (l1 l2 : List (String × β)) (m : String) :
    dictGet (l1 ++ l2) m
      = match dictGet l1 m with
        | some v => some v
        | none => dictGet l2 m := by
  induction l1 with
  | nil => rfl
  | cons p rest ih =>
    obtain ⟨k, v⟩ := p
    by_cases hk : k = m
    · simp [dictGet, hk]
    · simp only [List.cons_append, dictGet, if_neg hk]
      exact ih

theorem dictGet_mapReplace_ne (l : List (String × Chart)) (n : String)
    (c : Chart) (m : String) (hnm : n ≠ m) :
    dictGet (l.map (fun p => if p.1 = n then (n, c) else p)) m
      = dictGet l m := by
  induction l with
  | nil => rfl
  | cons p rest ih =>
    obtain ⟨k, v⟩ := p
    simp only [List.map_cons]
    by_cases hk : k = n
    · rw [show (if ((k, v) : String × Chart).1 = n then (n, c) else (k, v))
          = (n, c) from by simp [hk]]
      subst hk
      simp [dictGet, hnm, ih]
    · rw [show (if ((k, v) : String × Chart).1 = n then (n, c) else (k, v))
          = (k, v) from by simp [hk]]
      simp [dictGet, ih]

theorem dictGet_mapReplace_eq (l : List (String × Chart)) (n : String)
    (c : Chart) (hsome : (dictGet l n).isSome = true) :
    dictGet (l.map (fun p => if p.1 = n then (n, c) else p)) n = some c := by
  induction l with
  | nil => simp [dictGet] at hsome
  | cons p rest ih =>
    obtain ⟨k, v⟩ := p
    simp only [List.map_cons]
    by_cases hk : k = n
    · rw [show (if ((k, v) : String × Chart).1 = n then (n, c) else (k, v))
          = (n, c) from by simp [hk]]
      simp [dictGet]
    · rw [show (if ((k, v) : String × Chart).1 = n then (n, c) else (k, v))
          = (k, v) from by simp [hk]]
      simp [dictGet, hk] at hsome
      simp [dictGet, hk, ih hsome]

theorem dictGet_upsert (l : List (String × Chart)) (n : String) (c : Chart)
    (m : String) :
    dictGet (upsert l n c) m = if n = m then some c else dictGet l m := by
  rw [upsert]
  by_cases hsome : (dictGet l n).isSome = true
  · rw [if_pos hsome]
    by_cases hm : n = m
    · subst hm
      rw [if_pos rfl]
      exact dictGet_mapReplace_eq l n c hsome
    · rw [if_neg hm]
      exact dictGet_mapReplace_ne l n c m hm
  · rw [if_neg hsome, dictGet_append]
    by_cases hm : n = m
    · subst hm
      have hnone : dictGet l n = none := by
        cases h : dictGet l n
        · rfl
        · rw [h] at hsome
          simp at hsome
      rw [hnone, if_pos rfl]
      simp [dictGet]
    · cases h : dictGet l m
      · simp [h, dictGet, hm]
      · simp [h, hm]

theorem applyCharts_dirExists (cs : List (String × Chart)) (fs : FS) :
    (applyCharts fs cs).resultsDirExists = fs.resultsDirExists := by
  induction cs generalizing fs with
  | nil => rfl
  | cons p rest ih =>
    simp only [applyCharts, List.foldl_cons] at ih ⊢
    rw [ih]
    rfl

theorem dictGet_applyCharts (cs : List (String × Chart)) (fs : FS)
    (m : String) :
    dictGet (applyCharts fs cs).files m
      = match dictGet cs.reverse m with
        | some c => some c
        | none => dictGet fs.files m := by
  induction cs generalizing fs with
  | nil => simp [applyCharts, dictGet]
  | cons p rest ih =>
    obtain ⟨n, c⟩ := p
    simp only [applyCharts, List.foldl_cons, List.reverse_cons] at ih ⊢
    rw [ih (saveFig fs n c), dictGet_append]
    cases h : dictGet rest.reverse m
    · simp only []
      rw [show (saveFig fs n c).files = upsert fs.files n c from rfl,
        dictGet_upsert]
      by_cases hm : n = m
      · subst hm
        simp [dictGet]
      · simp [dictGet, hm]
    · rfl

theorem dictGet_applyCharts_idem (cs : List (String × Chart)) (fs : FS)
    (m : String) :
    dictGet (applyCharts (applyCharts fs cs) cs).files m
      = dictGet (applyCharts fs cs).files m := by
  rw [dictGet_applyCharts cs (applyCharts fs cs) m]
  cases h : dictGet cs.reverse m
  · simp only [h]
  · simp only [h]
    rw [dictGet_applyCharts cs fs m, h]

/-! ### Whole-run lemmas -/

theorem mkdirStage_dirExists (w : World) :
    (mkdirStage w).1.resultsDirExists = true := by
  simp only [mkdirStage]
  split
  · next h => exact h
  · rfl

theorem runScript_dirExists (w : World) :
    (runScript w).fs.resultsDirExists = true := by
  rcases hmk : mkdirStage w with ⟨fs1, tr1⟩
  have hfs1 : fs1.resultsDirExists = true := by
    have h := mkdirStage_dirExists w
    rw [hmk] at h
    exact h
  rcases hL1 : loadArg w 1 with ⟨r1, t1⟩
  rcases r1 with e1 | dm
  · simp [runScript, hmk, hL1, hfs1]
  · rcases hL2 : loadArg w 2 with ⟨r2, t2⟩
    rcases r2 with e2 | dc
    · simp [runScript, hmk, hL1, hL2, hfs1]
    · rcases hra : renderAll dc dm with ⟨charts, err⟩
      simp [runScript, hmk, hL1, hL2, hra, applyCharts_dirExists, hfs1]

theorem runScript_error_fs (w : World) (f : FS) :
    (runScript { w with fs := f }).error = (runScript w).error := by
  have hl1 : loadArg { w with fs := f } 1 = loadArg w 1 := rfl
  have hl2 : loadArg { w with fs := f } 2 = loadArg w 2 := rfl
  rcases hmk : mkdirStage { w with fs := f } with ⟨fs1, tr1⟩
  rcases hmk' : mkdirStage w with ⟨fs1', tr1'⟩
  rcases hL1 : loadArg w 1 with ⟨r1, t1⟩
  rcases r1 with e1 | dm
  · simp [runScript, hmk, hmk', hl1, hL1]
  · rcases hL2 : loadArg w 2 with ⟨r2, t2⟩
    rcases r2 with e2 | dc
    · simp [runScript, hmk, hmk', hl1, hl2, hL1, hL2]
    · rcases hra : renderAll dc dm with ⟨charts, err⟩
      simp [runScript, hmk, hmk', hl1, hl2, hL1, hL2, hra]

/-! ### C7 -/

/-- C7: after a successful run, running the script again with the same
inputs is safe — the results directory already exists and the second run
still finishes without error, silently overwriting the files: every file
name maps to the same saved figure as after the first run. -/
theorem c7_second_run (w : World) (h : (runScript w).error = none) :
    (runScript w).fs.resultsDirExists = true ∧
    (runScript { w with fs := (runScript w).fs }).error = none ∧
    ∀ n, dictGet (runScript { w with fs := (runScript w).fs }).fs.files n
        = dictGet (runScript w).fs.files n := by
  refine ⟨runScript_dirExists w, by rw [runScript_error_fs]; exact h, ?_⟩
  intro n
  rcases hmk : mkdirStage w with ⟨fs1, tr1⟩
  rcases hL1 : loadArg w 1 with ⟨r1, t1⟩
  rcases r1 with e1 | dm
  · exfalso
    simp [runScript, hmk, hL1] at h
  · rcases hL2 : loadArg w 2 with ⟨r2, t2⟩
    rcases r2 with e2 | dc
    · exfalso
      simp [runScript, hmk, hL1, hL2] at h
    · rcases hra : renderAll dc dm with ⟨charts, err⟩
      have hfs1ex : fs1.resultsDirExists = true := by
        have hx := mkdirStage_dirExists w
        rw [hmk] at hx
        exact hx
      have hfs : (runScript w).fs = applyCharts fs1 charts := by
        simp [runScript, hmk, hL1, hL2, hra]
      rw [hfs]
      have hAex : (applyCharts fs1 charts).resultsDirExists = true := by
        rw [applyCharts_dirExists]
        exact hfs1ex
      have hl1' : loadArg { w with fs := applyCharts fs1 charts } 1
          = (Except.ok dm, t1) := hL1
      have hl2' : loadArg { w with fs := applyCharts fs1 charts } 2
          = (Except.ok dc, t2) := hL2
      have hmk2 : mkdirStage { w with fs := applyCharts fs1 charts }
          = (applyCharts fs1 charts, []) := by
        simp only [mkdirStage]
        rw [if_pos hAex]
      have hfs2 : (runScript { w with fs := applyCharts fs1 charts }).fs
          = applyCharts (applyCharts fs1 charts) charts := by
        simp [runScript, hmk2, hl1', hl2', hra]
      rw [hfs2, dictGet_applyCharts_idem]

theorem c7_second_run_witness :
    (runScript worldCat1).fs.resultsDirExists = true ∧
    (runScript { worldCat1 with fs := (runScript worldCat1).fs }).error = none ∧
    dictGet (runScript { worldCat1 with fs := (runScript worldCat1).fs }).fs.files
        "cat1.png"
      = dictGet (runScript worldCat1).fs.files "cat1.png" :=
  have h := c7_second_run worldCat1 (by decide)
  ⟨h.1, h.2.1, h.2.2 "cat1.png"⟩

/-! ### C6 -/

theorem loadArg_append (w : World) (extra : List String) (i : Nat)
    (hi : i < w.argv.length) :
    loadArg { w with argv := w.argv ++ extra } i = loadArg w i := by
  simp only [loadArg]
  rw [List.get?_append hi]

/-- C6 (counterexample): an invocation with two extra positional
arguments beyond the two input paths is not fatal — the run completes
without error. -/
theorem c6_extra_args_counterexample :
    worldExtraArgs.argv.length = 5 ∧
    (runScript worldExtraArgs).error = none := by
  decide

/-- C6 (amended): an invocation missing one of the two positional
arguments always dies with an unhandled error (`IndexError` when the
missing index is reached first); extra positional arguments beyond the
two paths are silently ignored — appending them changes nothing about
the run. -/
theorem c6_argument_handling (w : World) :
    (w.argv.get? 1 = none ∨ w.argv.get? 2 = none →
      (runScript w).error ≠ none) ∧
    (∀ extra, 3 ≤ w.argv.length →
      runScript { w with argv := w.argv ++ extra } = runScript w) := by
  constructor
  · intro hor
    rcases hmk : mkdirStage w with ⟨fs1, tr1⟩
    rcases hor with h1 | h2
    · have hl1 : loadArg w 1
          = (Except.error "IndexError: list index out of range", []) := by
        simp only [loadArg, h1]
      simp [runScript, hmk, hl1]
    · rcases hL1 : loadArg w 1 with ⟨r1, t1⟩
      rcases r1 with e1 | dm
      · simp [runScript, hmk, hL1]
      · have hl2 : loadArg w 2
            = (Except.error "IndexError: list index out of range", []) := by
          simp only [loadArg, h2]
        simp [runScript, hmk, hL1, hl2]
  · intro extra hlen
    have hl1 := loadArg_append w extra 1 (by omega)
    have hl2 := loadArg_append w extra 2 (by omega)
    have hmk : mkdirStage { w with argv := w.argv ++ extra } = mkdirStage w := rfl
    have hrp : resultsPath { w with argv := w.argv ++ extra } = resultsPath w := rfl
    rcases hmkw : mkdirStage w with ⟨fs1, tr1⟩
    rcases hL1 : loadArg w 1 with ⟨r1, t1⟩
    rw [hL1] at hl1
    rcases r1 with e1 | dm
    · simp [runScript, hmk, hmkw, hl1, hL1, hrp]
    · rcases hL2 : loadArg w 2 with ⟨r2, t2⟩
      rw [hL2] at hl2
      rcases r2 with e2 | dc
      · simp [runScript, hmk, hmkw, hl1, hl2, hL1, hL2, hrp]
      · rcases hra : renderAll dc dm with ⟨charts, err⟩
        simp [runScript, hmk, hmkw, hl1, hl2, hL1, hL2, hra, hrp]

theorem c6_argument_handling_witness :
    (runScript worldNoArgs).error ≠ none ∧
    runScript { worldCat1 with argv := worldCat1.argv ++ ["x"] }
      = runScript worldCat1 :=
  ⟨(c6_argument_handling worldNoArgs).1 (Or.inl (by decide)),
   (c6_argument_handling worldCat1).2 ["x"] (by decide)⟩

/-! ### Trace lemmas -/

theorem saves_all_nonopen (cs : List (String × Chart)) :
    (cs.map (fun nc => Event.saveEv nc.1)).all (fun e => !(isOpenEv e))
      = true := by
  induction cs with
  | nil => rfl
  | cons c rest ih =>
    simp only [List.map_cons, List.all_cons, ih]
    rfl

theorem noOpenAfterChdir_saves (cs : List (String × Chart)) :
    noOpenAfterChdir (cs.map (fun nc => Event.saveEv nc.1)) = true := by
  induction cs with
  | nil => rfl
  | cons c rest ih =>
    simp only [List.map_cons, noOpenAfterChdir]
    exact ih

theorem noOpenAfterChdir_pre (pre : List Event) (p : String)
    (cs : List (String × Chart))
    (hpre : ∀ e ∈ pre, isChdirEv e = false) :
    noOpenAfterChdir
      (pre ++ Event.chdirEv p :: cs.map (fun nc => Event.saveEv nc.1))
      = true := by
  induction pre with
  | nil =>
    simp only [List.nil_append, noOpenAfterChdir]
    rw [saves_all_nonopen, noOpenAfterChdir_saves]
    rfl
  | cons e rest ih =>
    have htail := fun x hx => hpre x (List.mem_cons_of_mem e hx)
    cases e with
    | mkdirEv s =>
      simp only [List.cons_append, noOpenAfterChdir]
      exact ih htail
    | openEv s =>
      simp only [List.cons_append, noOpenAfterChdir]
      exact ih htail
    | chdirEv s =>
      have := hpre (Event.chdirEv s) (by simp)
      simp [isChdirEv] at this
    | saveEv s =>
      simp only [List.cons_append, noOpenAfterChdir]
      exact ih htail

theorem noOpenAfterChdir_nochdir (tr : List Event)
    (h : ∀ e ∈ tr, isChdirEv e = false) :
    noOpenAfterChdir tr = true := by
  induction tr with
  | nil => rfl
  | cons e rest ih =>
    have htail := fun x hx => h x (List.mem_cons_of_mem e hx)
    cases e with
    | mkdirEv s => exact ih htail
    | openEv s => exact ih htail
    | chdirEv s =>
      have := h (Event.chdirEv s) (by simp)
      simp [isChdirEv] at this
    | saveEv s => exact ih htail

theorem mkdirStage_no_chdir (w : World) :
    ∀ e ∈ (mkdirStage w).2, isChdirEv e = false := by
  simp only [mkdirStage]
  split
  · intro e he
    exact absurd he (List.not_mem_nil e)
  · intro e he
    rw [List.mem_singleton] at he
    subst he
    rfl

theorem loadArg_no_chdir (w : World) (i : Nat) :
    ∀ e ∈ (loadArg w i).2, isChdirEv e = false := by
  rcases hg : w.argv.get? i with _ | a
  · simp only [loadArg, hg]
    intro e he
    exact absurd he (List.not_mem_nil e)
  · rcases hd : dictGet w.fileContents (resolve w.cwd a) with _ | od
    · simp only [loadArg, hg, hd]
      intro e he
      exact absurd he (List.not_mem_nil e)
    · rcases od with _ | d <;>
        · simp only [loadArg, hg, hd]
          intro e he
          rw [List.mem_singleton] at he
          subst he
          rfl

theorem opensResolvedAgainst_append (cwd : String) (argv : List String)
    (t1 t2 : List Event) :
    opensResolvedAgainst cwd argv (t1 ++ t2)
      = (opensResolvedAgainst cwd argv t1
          && opensResolvedAgainst cwd argv t2) := by
  simp [opensResolvedAgainst, List.all_append]

theorem opensResolved_of_no_open (cwd : String) (argv : List String)
    (tr : List Event) (h : ∀ e ∈ tr, isOpenEv e = false) :
    opensResolvedAgainst cwd argv tr = true := by
  rw [opensResolvedAgainst, List.all_eq_true]
  intro e he
  cases e with
  | mkdirEv s => rfl
  | openEv s =>
    have := h (Event.openEv s) he
    simp [isOpenEv] at this
  | chdirEv s => rfl
  | saveEv s => rfl

theorem mkdirStage_no_open (w : World) :
    ∀ e ∈ (mkdirStage w).2, isOpenEv e = false := by
  simp only [mkdirStage]
  split
  · intro e he
    exact absurd he (List.not_mem_nil e)
  · intro e he
    rw [List.mem_singleton] at he
    subst he
    rfl

theorem saves_no_open (cs : List (String × Chart)) :
    ∀ e ∈ cs.map (fun nc => Event.saveEv nc.1), isOpenEv e = false := by
  intro e he
  rw [List.mem_map] at he
  obtain ⟨nc, -, rfl⟩ := he
  rfl

theorem arg_mem_take (argv : List String) (a : String) (i : Nat)
    (hi : i = 1 ∨ i = 2) (h : argv.get? i = some a) :
    a ∈ (argv.drop 1).take 2 := by
  rcases hi with rfl | rfl
  · cases argv with
    | nil => simp [List.get?] at h
    | cons x rest =>
      cases rest with
      | nil => simp [List.get?] at h
      | cons y t =>
        simp only [List.get?] at h
        injection h with h
        subst h
        simp
  · cases argv with
    | nil => simp [List.get?] at h
    | cons x rest =>
      cases rest with
      | nil => simp [List.get?] at h
      | cons y t =>
        cases t with
        | nil => simp [List.get?] at h
        | cons z t' =>
          simp only [List.get?] at h
          injection h with h
          subst h
          simp

theorem opensResolved_loadArg (w : World) (i : Nat) (hi : i = 1 ∨ i = 2) :
    opensResolvedAgainst w.cwd w.argv (loadArg w i).2 = true := by
  rcases hg : w.argv.get? i with _ | a
  · simp only [loadArg, hg]
    rfl
  · have hmem := arg_mem_take w.argv a i hi hg
    have hone : opensResolvedAgainst w.cwd w.argv
        [Event.openEv (resolve w.cwd a)] = true := by
      rw [opensResolvedAgainst, List.all_eq_true]
      intro e he
      rw [List.mem_singleton] at he
      subst he
      simp only [List.any_eq_true]
      exact ⟨a, hmem, by simp⟩
    rcases hd : dictGet w.fileContents (resolve w.cwd a) with _ | od
    · simp only [loadArg, hg, hd]
      rfl
    · rcases od with _ | d <;> simpa only [loadArg, hg, hd] using hone

theorem opensResolved_chdir_cons (cwd : String) (argv : List String)
    (p : String) (l : List Event) :
    opensResolvedAgainst cwd argv (Event.chdirEv p :: l)
      = opensResolvedAgainst cwd argv l := by
  simp [opensResolvedAgainst]

/-! ### C8 -/

/-- C8: in every run, all file opens happen before the working directory
is changed to the results directory, and every opened path is one of the
two input arguments resolved against the *original* working directory. -/
theorem c8_opens_before_chdir (w : World) :
    noOpenAfterChdir (runScript w).trace = true ∧
    opensResolvedAgainst w.cwd w.argv (runScript w).trace = true := by
  rcases hmk : mkdirStage w with ⟨fs1, tr1⟩
  have htr1c : ∀ e ∈ tr1, isChdirEv e = false := by
    have hx := mkdirStage_no_chdir w
    rw [hmk] at hx
    exact hx
  have htr1o : opensResolvedAgainst w.cwd w.argv tr1 = true := by
    have hx := opensResolved_of_no_open w.cwd w.argv (mkdirStage w).2
      (mkdirStage_no_open w)
    rw [hmk] at hx
    exact hx
  rcases hL1 : loadArg w 1 with ⟨r1, t1⟩
  have ht1c : ∀ e ∈ t1, isChdirEv e = false := by
    have hx := loadArg_no_chdir w 1
    rw [hL1] at hx
    exact hx
  have ht1o : opensResolvedAgainst w.cwd w.argv t1 = true := by
    have hx := opensResolved_loadArg w 1 (Or.inl rfl)
    rw [hL1] at hx
    exact hx
  rcases r1 with e1 | dm
  · simp only [runScript, hmk, hL1]
    constructor
    · apply noOpenAfterChdir_nochdir
      intro e he
      rcases List.mem_append.mp he with hin | hin
      exacts [htr1c e hin, ht1c e hin]
    · rw [opensResolvedAgainst_append, htr1o, ht1o]
      rfl
  · rcases hL2 : loadArg w 2 with ⟨r2, t2⟩
    have ht2c : ∀ e ∈ t2, isChdirEv e = false := by
      have hx := loadArg_no_chdir w 2
      rw [hL2] at hx
      exact hx
    have ht2o : opensResolvedAgainst w.cwd w.argv t2 = true := by
      have hx := opensResolved_loadArg w 2 (Or.inr rfl)
      rw [hL2] at hx
      exact hx
    rcases r2 with e2 | dc
    · simp only [runScript, hmk, hL1, hL2]
      constructor
      · apply noOpenAfterChdir_nochdir
        intro e he
        rcases List.mem_append.mp he with hin | hin
        · rcases List.mem_append.mp hin with hin' | hin'
          exacts [htr1c e hin', ht1c e hin']
        · exact ht2c e hin
      · rw [opensResolvedAgainst_append, opensResolvedAgainst_append,
          htr1o, ht1o, ht2o]
        rfl
    · rcases hra : renderAll dc dm with ⟨charts, err⟩
      simp only [runScript, hmk, hL1, hL2, hra]
      constructor
      · rw [List.append_assoc (tr1 ++ t1 ++ t2)
            [Event.chdirEv (resultsPath w)]
            (charts.map (fun nc => Event.saveEv nc.1)),
          List.singleton_append]
        apply noOpenAfterChdir_pre
        intro e he
        rcases List.mem_append.mp he with hin | hin
        · rcases List.mem_append.mp hin with hin' | hin'
          exacts [htr1c e hin', ht1c e hin']
        · exact ht2c e hin
      · rw [opensResolvedAgainst_append, opensResolvedAgainst_append,
          opensResolvedAgainst_append, opensResolvedAgainst_append,
          htr1o, ht1o, ht2o,
          opensResolved_of_no_open w.cwd w.argv
            [Event.chdirEv (resultsPath w)]
            (by intro e he; rw [List.mem_singleton] at he; subst he; rfl),
          opensResolved_of_no_open w.cwd w.argv _ (saves_no_open charts)]
        rfl

/-! ### C9 -/

/-- C9: when the results directory is absent, every run creates it as its
very first side effect — before either input file is opened — so even a
run that dies loading an input leaves the directory behind. -/
theorem c9_results_dir_first (w : World)
    (h : w.fs.resultsDirExists = false) :
    (runScript w).fs.resultsDirExists = true ∧
    (runScript w).trace.head? = some (Event.mkdirEv (resultsPath w)) := by
  refine ⟨runScript_dirExists w, ?_⟩
  have hmk : mkdirStage w
      = ({ w.fs with resultsDirExists := true },
         [Event.mkdirEv (resultsPath w)]) := by
    unfold mkdirStage
    rw [h]
    rw [if_neg (by simp)]
  rcases hL1 : loadArg w 1 with ⟨r1, t1⟩
  rcases r1 with e1 | dm
  · simp [runScript, hmk, hL1]
  · rcases hL2 : loadArg w 2 with ⟨r2, t2⟩
    rcases r2 with e2 | dc
    · simp [runScript, hmk, hL1, hL2]
    · rcases hra : renderAll dc dm with ⟨charts, err⟩
      simp [runScript, hmk, hL1, hL2, hra]

theorem c9_results_dir_first_witness :
    ((runScript worldBadInput).fs.resultsDirExists = true ∧
      (runScript worldBadInput).trace.head?
        = some (Event.mkdirEv (resultsPath worldBadInput))) ∧
    (runScript worldBadInput).error ≠ none :=
  ⟨c9_results_dir_first worldBadInput rfl, by decide⟩
